import Mathlib

/-!
Verification of `mmctools/coupling/sowfa.py` (SOWFA input writers).

The development shallowly embeds the two writer classes of the source file:

* `BoundaryCoupling` — per-plane `points` file plus per-timestep scalar/vector
  boundary-field files (`_check_xarray_dataset`, `write`, `_write_points`,
  `_write_boundary_vector`, `_write_boundary_scalar`);
* `InternalCoupling` — flat text tables (`write_BCs`, `write_ICs`,
  `write_timeheight`).

Pure data manipulations become Lean functions over lists; pandas/xarray
selection, broadcast and ravel semantics are spelled out definition by
definition next to the source lines they embed.  Numeric field values are
rationals (the claims under test concern ordering, selection and layout,
never rounding of binary floating point).
-/

namespace Sowfa

/-! ## Boundary plane grid model

`BoundaryCoupling` datasets have dimensions drawn from
`['datetime','height','x','y']` with exactly one of the spatial axes
`x`, `y`, `height` absent (the boundary-normal axis).  For the spatial part
we use a small axis type. -/

/-- The three spatial axes of a SOWFA boundary dataset. -/
inductive Axis : Type
  | x
  | y
  | height
deriving DecidableEq, Repr

/-- Spatial part of an xarray dataset held by `BoundaryCoupling`:
which spatial axes occur as dimensions, the 1-D coordinate values of each
axis, and the scalar coordinate of the boundary-normal (missing) axis.
(`_check_xarray_dataset` reads `self.ds.coords[constdim].values`, so the
missing axis always carries a scalar coordinate.) -/
structure BDataset (α : Type) where
  dims : List Axis
  coord : Axis → List α
  constCoord : α

/-- Embeds `sowfa.py:406`:
`self.bndry_dims = [dim for dim in ['x','y','height'] if dim in dims]`. -/
def bndry_dims (dims : List Axis) : List Axis :=
  [Axis.x, Axis.y, Axis.height].filter (fun a => a ∈ dims)

/-- The array `np.meshgrid` receives for axis `a` in `_write_points`
(`sowfa.py:434-437`): the 1-D coordinate when `a` is a dimension, and the
length-one array arising from the scalar coordinate of the missing axis. -/
def mgCoord (ds : BDataset α) (a : Axis) : List α :=
  if a ∈ ds.dims then ds.coord a else [ds.constCoord]

/-- Embeds `BoundaryCoupling._write_points` (`sowfa.py:433-442`):
`np.meshgrid(x, y, height, indexing='ij')`, each component raveled in C
(row-major) order and stacked into an `(N,3)` array of points.  For arrays
of lengths `(nx, ny, nz)` this is exactly the nested enumeration with `x`
outermost, `y` in the middle and `height` innermost. -/
def write_points (ds : BDataset α) : List (α × α × α) :=
  (mgCoord ds Axis.x).flatMap fun xv =>
    (mgCoord ds Axis.y).flatMap fun yv =>
      (mgCoord ds Axis.height).map fun zv => (xv, yv, zv)

/-- Component of a point along a given axis. -/
def Axis.comp : Axis → α × α × α → α
  | Axis.x, p => p.1
  | Axis.y, p => p.2.1
  | Axis.height, p => p.2.2

/-- Embeds the per-timestep payload of `_write_boundary_scalar`
(`sowfa.py:507-517`): the field is transposed to
`['t_index'] + self.bndry_dims` and the timestep slice is raveled in C
order, i.e. enumerated with the first in-plane axis outermost and the
second innermost.  The slice is represented as a function of the two
in-plane coordinate values. -/
def fieldRavel (ds : BDataset α) (f : α → α → β) : List β :=
  match bndry_dims ds.dims with
  | [d1, d2] => (ds.coord d1).flatMap fun c1 => (ds.coord d2).map fun c2 => f c1 c2
  | _ => []

/-- Evaluate a two-argument field at the in-plane components of a point,
taking the in-plane axes (and their order) from `bndry_dims`. -/
def fieldAtPoint (dims : List Axis) (f : α → α → β) (p : α × α × α) : β :=
  match bndry_dims dims with
  | [d1, d2] => f (d1.comp p) (d2.comp p)
  | _ => f p.1 p.1

/-- Exactly one of the three spatial axes is absent from the dataset's
dimensions (the plane-orientation invariant checked at construction). -/
def oneMissing (dims : List Axis) : Prop :=
  (Axis.x ∈ dims ∧ Axis.y ∈ dims ∧ Axis.height ∉ dims) ∨
  (Axis.x ∈ dims ∧ Axis.y ∉ dims ∧ Axis.height ∈ dims) ∨
  (Axis.x ∉ dims ∧ Axis.y ∈ dims ∧ Axis.height ∈ dims)

end Sowfa

namespace Sowfa

/-- A concrete dataset used to instantiate hypotheses: `y` is the missing
(boundary-normal) axis, `x = [0,1]`, `height = [5,6,7]`, `y = 2`. -/
def exampleDS : BDataset Int where
  dims := [Axis.x, Axis.height]
  coord := fun a =>
    match a with
    | Axis.x => [0, 1]
    | Axis.y => [2]
    | Axis.height => [5, 6, 7]
  constCoord := 2

end Sowfa

namespace Sowfa

/-! ## Broadcast (dimension expansion) of under-specified fields

`_write_boundary_vector` / `_write_boundary_scalar` (`sowfa.py:457-461`,
`503-506`) call `ds[var].expand_dims({dim: ds.coords[dim]})` for every
in-plane dimension the variable lacks.  On the function representation of
a timestep slice, expanding a field that lacks the first (resp. second)
in-plane axis means ignoring that coordinate argument. -/

/-- `expand_dims` for a field that has only the second in-plane axis: the
added first axis is ignored. -/
def expand_dims_missing_first (g : α → β) : α → α → β := fun _ c2 => g c2

/-- `expand_dims` for a field that has only the first in-plane axis: the
added second axis is ignored. -/
def expand_dims_missing_second (g : α → β) : α → α → β := fun c1 _ => g c1

/-! ## Per-timestep write loop -/

/-- One timestep slice of a transposed boundary field: its `t_index`
coordinate (seconds since the reference date, possibly fractional or
negative) and the raveled payload that would be written for it. -/
structure TSlice (β : Type) where
  t_index : ℚ
  payload : β

/-- Embeds the timestep loop of `_write_boundary_scalar`
(`sowfa.py:510-522`; `_write_boundary_vector`, `sowfa.py:469-484`, has the
identical control flow over `zip(*uvec)`): a slice with `t_index < 0` is
skipped with a `Skipping t=` diagnostic, every other slice produces one
file in the subdirectory named by its `t_index` value.  Returns the
written `(subdirectory t_index, payload)` pairs and the skipped `t_index`
values. -/
def write_boundary_steps : List (TSlice β) → List (ℚ × β) × List ℚ
  | [] => ([], [])
  | s :: rest =>
    let r := write_boundary_steps rest
    if s.t_index < 0 then (r.1, s.t_index :: r.2)
    else ((s.t_index, s.payload) :: r.1, r.2)

/-! ## Binary file layout (`binary=True`)

Elements of the numeric payload are abstracted to `Int` carriers with an
explicit per-element byte encoding `enc` (standing for the 8-byte float64
layout produced by `ndarray.tobytes`). -/

/-- The module-level `boundaryDataHeader` template (`sowfa.py:17-29`)
after `.format(N=N)`. -/
def boundaryDataHeader (N : Nat) : String :=
  "/*--------------------------------*- C++ -*----------------------------------*\\\n  =========                 |\n  \\\\      /  F ield         | OpenFOAM: The Open Source CFD Toolbox\n   \\\\    /   O peration     | Website:  https://openfoam.org\n    \\\\  /    A nd           | Version:  6\n     \\\\/     M anipulation  |\n\\*---------------------------------------------------------------------------*/\n\n// generated by mmctools.coupling.sowfa.BoundaryCoupling\n// https://github.com/a2e-mmc/mmctools/tree/dev\n\n" ++ toString N ++ "\n("

/-- One `f.write` call on a binary stream: appends bytes to the file. -/
def fwrite (file bs : List Nat) : List Nat := file ++ bs

/-- Byte values of an ASCII string.  Every string the source writes in
binary mode (`bytes(header,'utf-8')`, `b')'`, `b'\n(0 0 0)'`, `b'\n0'`) is
pure ASCII, for which this equals the UTF-8 encoding. -/
def asciiBytes (s : String) : List Nat := s.data.map Char.toNat

/-- `data.tobytes(order='C')` for the `(N,3)` vector array of
`_write_boundary_vector`: row-major concatenation of the per-element
encodings. -/
def tobytesVec (enc : Int → List Nat) (data : List (Int × Int × Int)) : List Nat :=
  data.flatMap fun p => enc p.1 ++ enc p.2.1 ++ enc p.2.2

/-- `ui.tobytes(order='C')` for the 1-D scalar array of
`_write_boundary_scalar`. -/
def tobytesScalar (enc : Int → List Nat) (data : List Int) : List Nat :=
  data.flatMap enc

/-- Embeds the binary branch of `_write_boundary_vector`
(`sowfa.py:486-491`) as its sequence of `f.write` calls: UTF-8 header, raw
row-major data bytes, the literal `)` byte, then the literal byte string
`"\n(0 0 0)"`. -/
def binaryVectorFile (enc : Int → List Nat) (data : List (Int × Int × Int)) : List Nat :=
  fwrite (fwrite (fwrite (fwrite [] (asciiBytes (boundaryDataHeader data.length)))
    (tobytesVec enc data)) (asciiBytes ")")) (asciiBytes "\n(0 0 0)")

/-- Embeds the binary branch of `_write_boundary_scalar`
(`sowfa.py:524-529`): UTF-8 header, raw data bytes, `)`, then the literal
byte string `"\n0"`. -/
def binaryScalarFile (enc : Int → List Nat) (data : List Int) : List Nat :=
  fwrite (fwrite (fwrite (fwrite [] (asciiBytes (boundaryDataHeader data.length)))
    (tobytesScalar enc data)) (asciiBytes ")")) (asciiBytes "\n0")

/-- Modelled from the spec's words (claim C4), for comparison with
`binaryVectorFile`: a binary vector file whose trailing average-value
placeholder is appended "as raw bytes matching the field's element type",
i.e. the element encoding of zero once per vector component. -/
def binaryVectorFileSpec (enc : Int → List Nat) (data : List (Int × Int × Int)) : List Nat :=
  asciiBytes (boundaryDataHeader data.length) ++ tobytesVec enc data ++
    asciiBytes ")" ++ (enc 0 ++ enc 0 ++ enc 0)

/-- Modelled from the spec's words (claim C4), for comparison with
`binaryScalarFile`: the scalar placeholder `0` as element-typed raw
bytes. -/
def binaryScalarFileSpec (enc : Int → List Nat) (data : List Int) : List Nat :=
  asciiBytes (boundaryDataHeader data.length) ++ tobytesScalar enc data ++
    asciiBytes ")" ++ enc 0

/-- A concrete element encoding: 8-byte little-endian two's-complement
words, the integer shadow of the float64 element size. -/
def encLE8 (n : Int) : List Nat :=
  (List.range 8).map fun i => ((n % (2 : Int) ^ 64).toNat / 256 ^ i) % 256

/-! ## `BoundaryCoupling.write` control flow -/

/-- A scalar or vector field request, one entry of the `fields` dict of
`BoundaryCoupling.write` (value = dataset data-variable name(s)). -/
inductive FieldSpec : Type
  | scalar (dvar : String)
  | vector (dvars : List String)
deriving DecidableEq, Repr

/-- A file produced by `BoundaryCoupling.write`: the `points` file, or the
per-timestep file of one field in the subdirectory named by the timestep's
`t_index`. -/
inductive BFile : Type
  | points
  | field (tname : ℚ) (fieldname : String)
deriving DecidableEq, Repr

/-- What `write` consumes from the writer state: the spatial dimensions of
the dataset, the data-variable names, and the `t_index` values of the
retained timesteps. -/
structure WriteEnv where
  dims : List Axis
  data_vars : List String
  t_indices : List ℚ

/-- The per-field files produced by `_write_boundary_vector` /
`_write_boundary_scalar`: one file per non-negative `t_index`. -/
def fieldFiles (env : WriteEnv) (fieldname : String) : List BFile :=
  (env.t_indices.filter fun t => !(decide (t < 0))).map fun t => BFile.field t fieldname

/-- The assertions `write` makes for one requested field
(`sowfa.py:412-421`): every component variable of a vector must exist in
the dataset and there must be exactly 3 of them; a scalar's variable must
exist. -/
def fieldOK (env : WriteEnv) : FieldSpec → Bool
  | FieldSpec.vector dvars => dvars.all (fun d => decide (d ∈ env.data_vars)) &&
      decide (dvars.length = 3)
  | FieldSpec.scalar dvar => decide (dvar ∈ env.data_vars)

/-- The field loop of `write` (`sowfa.py:411-423`), threading the list of
files written so far: each field is validated (vector: membership then
arity; scalar: membership) and, on success, its per-timestep files are
appended; a failed assertion ends the call with the files written so far
on disk. -/
def writeFieldLoop (env : WriteEnv) :
    List (String × FieldSpec) → List BFile → List BFile × Except String Unit
  | [], acc => (acc, Except.ok ())
  | (fieldname, FieldSpec.vector dvars) :: rest, acc =>
    if !(dvars.all fun d => decide (d ∈ env.data_vars)) then
      (acc, Except.error "Dataset does not contain all of dvars")
    else if !(decide (dvars.length = 3)) then
      (acc, Except.error "assert (len(dvars) == 3)")
    else writeFieldLoop env rest (acc ++ fieldFiles env fieldname)
  | (fieldname, FieldSpec.scalar dvar) :: rest, acc =>
    if !(decide (dvar ∈ env.data_vars)) then
      (acc, Except.error "assert (dvars in self.ds.variables)")
    else writeFieldLoop env rest (acc ++ fieldFiles env fieldname)

/-- Embeds `BoundaryCoupling.write` (`sowfa.py:403-423`): derive
`bndry_dims` and assert there are exactly two, write the `points` file,
then loop over the requested fields. -/
def write (env : WriteEnv) (fields : List (String × FieldSpec)) :
    List BFile × Except String Unit :=
  if !(decide ((bndry_dims env.dims).length = 2)) then
    ([], Except.error "assert (len(self.bndry_dims) == 2)")
  else writeFieldLoop env fields [BFile.points]

/-! ## Construction-time dataset validation -/

/-- One dimension of an xarray dataset, together with the `.dims` of its
coordinate variable (`none` when the dimension has no coordinate, in which
case `self.ds.coords[dim]` raises and construction fails). -/
structure DimCoord where
  name : String
  coordDims : Option (List String)
deriving DecidableEq, Repr

/-- `expected_dims` default of `_check_xarray_dataset` (`sowfa.py:360`). -/
def expected_dims : List String := ["datetime", "height", "x", "y"]

/-- The body of the first loop of `_check_xarray_dataset`
(`sowfa.py:362-366`) for one dimension: `dim in expected_dims`, and the
dimension's coordinate exists, is 1-D and is indexed by the dimension
itself (`coord.dims[0] == dim and len(coord.dims) == 1`). -/
def check_dim (d : DimCoord) : Bool :=
  decide (d.name ∈ expected_dims) && decide (d.coordDims = some [d.name])

/-- The removal loop `for dim in self.ds.dims: dims.remove(dim)`
(`sowfa.py:369-371`).  Python `list.remove` raises `ValueError` when the
element is absent, so the loop is fallible. -/
def removeAll : List String → List String → Option (List String)
  | acc, [] => some acc
  | acc, n :: rest => if n ∈ acc then removeAll (acc.erase n) rest else none

/-- Embeds `BoundaryCoupling._check_xarray_dataset` (`sowfa.py:359-375`):
per-dimension assertions, then removal of the present dimensions from
`expected_dims` and the assertion that exactly one remains; returns the
inferred constant (boundary-normal) dimension. -/
def check_xarray_dataset (dims : List DimCoord) : Except String String :=
  if !(dims.all check_dim) then
    Except.error "assert dim in expected_dims and coord is a proper 1-D coordinate"
  else
    match removeAll expected_dims (dims.map DimCoord.name) with
    | none => Except.error "ValueError: list.remove(x): x not in list"
    | some [c] => Except.ok c
    | some _ => Except.error "assert (len(dims) == 1)"

/-- Embeds `BoundaryCoupling.__init__` (`sowfa.py:293-357`) at the level
relevant to construction failure: `_check_xarray_dataset` must pass, and
the subsequent date-range selection and reference-time normalization
(`ds.coords['datetime'][0]`, `ds.sel(datetime=...)`,
`self.ds['datetime'] - dateref`, `sowfa.py:337-357`) require `datetime` to
be a dimension of the dataset.  Returns the inferred constant dimension. -/
def BoundaryCoupling_init (dims : List DimCoord) : Except String String :=
  match check_xarray_dataset dims with
  | Except.error e => Except.error e
  | Except.ok c =>
    if "datetime" ∈ dims.map DimCoord.name then Except.ok c
    else Except.error "KeyError: datetime"

end Sowfa

namespace Sowfa

/-! ## Internal coupling: dataframe model

`InternalCoupling` stores a pandas dataframe indexed by `datetime` with a
`height` column, a computed `t_index` column (seconds since the reference
date) and named numeric field columns.  `datetime`, `t_index` and `height`
are dedicated row fields of the model; `columns` lists the remaining named
field columns, and each row carries its cells for those columns as an
association list in column order.  A cell holds `none` for NaN. -/

structure Row where
  datetime : ℚ
  t_index : ℚ
  height : ℚ
  vals : List (String × Option ℚ)
deriving DecidableEq, Repr

structure DFrame where
  columns : List String
  rows : List Row
deriving DecidableEq, Repr

/-- `InternalCoupling` writer state: the stored dataframe (`self.df`) and
the stored start date (`self.datefrom`, `sowfa.py:87`). -/
structure InternalCoupling where
  df : DFrame
  datefrom : ℚ
deriving DecidableEq, Repr

/-- Cell value of a named column in a row: `none` when the column is
absent from the row or the cell is NaN. -/
def Row.cell (r : Row) (c : String) : Option ℚ := (r.vals.lookup c).join

/-- `df.loc[:,field] = 0.0` for a column not yet in the frame
(`sowfa.py:173,237`): appends the column name and fills every row of the
new column with `0.0`. -/
def addZeroColumn (df : DFrame) (c : String) : DFrame where
  columns := df.columns ++ [c]
  rows := df.rows.map fun r => { r with vals := r.vals ++ [(c, some 0)] }

/-- The zero-filling loop over a list of (optional) requested field names:
`if (field is not None) and (field not in df.columns): df.loc[:,field] = 0.0`
(`sowfa.py:171-173` on the copied frame, `sowfa.py:235-237` on `self.df`). -/
def addMissingZeroColumns (df : DFrame) (fieldOpts : List (Option String)) : DFrame :=
  fieldOpts.foldl (fun d fo =>
    match fo with
    | none => d
    | some f => if f ∈ d.columns then d else addZeroColumn d f) df

/-- Assertion/exception outcomes of the internal-coupling writers. -/
inductive IErr : Type
  | fieldNotInDf (f : String)
  | fieldIncomplete (f : String)
  | needAllMomentum
  | seriesHasNoColumns
  | locKeyError
  | pivotDuplicate
deriving DecidableEq, Repr

/-- Embeds `InternalCoupling.write_BCs` (`sowfa.py:103-142`): assert the
field exists and is NaN-free, then write `(t_index, fact * value)` rows.
The state is unchanged (`write_BCs` only reads `self.df`). -/
def write_BCs (st : InternalCoupling) (fieldname : String) (fact : ℚ) :
    InternalCoupling × Except IErr (List (ℚ × ℚ)) :=
  if !(decide (fieldname ∈ st.df.columns)) then
    (st, Except.error (IErr.fieldNotInDf fieldname))
  else if !(st.df.rows.all fun r => (r.cell fieldname).isSome) then
    (st, Except.error (IErr.fieldIncomplete fieldname))
  else
    (st, Except.ok (st.df.rows.map fun r => (r.t_index, fact * (r.cell fieldname).getD 0)))

/-- Embeds `InternalCoupling.write_ICs` (`sowfa.py:145-191`).
`df = self.df.loc[self.datefrom].copy()` selects the rows whose index
label equals the stored start date; pandas squeezes a unique match to a
`Series`, and the subsequent `df.columns` attribute access
(`sowfa.py:172`) then raises `AttributeError` (a `Series` has no
`columns`); an empty selection raises `KeyError`.  With two or more
matching rows the selection stays a `DataFrame`: missing fields are
zero-filled on the copy, completeness of `[xmom, ymom, temp]` is asserted
in order, and `(height, xmom, ymom, temp)` rows are emitted.  The writer
state is returned unchanged in every case: the source mutates only the
`.copy()`. -/
def write_ICs (st : InternalCoupling) (xmom ymom temp : String) :
    InternalCoupling × Except IErr (List (ℚ × ℚ × ℚ × ℚ)) :=
  match st.df.rows.filter fun r => decide (r.datetime = st.datefrom) with
  | [] => (st, Except.error IErr.locKeyError)
  | [_] => (st, Except.error IErr.seriesHasNoColumns)
  | selRows =>
    let df1 := addMissingZeroColumns ⟨st.df.columns, selRows⟩
      [some xmom, some ymom, some temp]
    match [xmom, ymom, temp].find? (fun f => !(df1.rows.all fun r => (r.cell f).isSome)) with
    | some f => (st, Except.error (IErr.fieldIncomplete f))
    | none =>
      (st, Except.ok (df1.rows.map fun r =>
        (r.height, (r.cell xmom).getD 0, (r.cell ymom).getD 0, (r.cell temp).getD 0)))

/-- First-occurrence deduplication, as `pandas.unique` (used for
`self.df.height.unique()` and `self.df.t_index.unique()`,
`sowfa.py:228-229`). -/
def uniqueKeepFirst [DecidableEq α] : List α → List α
  | [] => []
  | a :: rest => a :: uniqueKeepFirst (rest.filter fun b => !(decide (b = a)))
  termination_by l => l.length
  decreasing_by
    simp only [List.length_cons]
    exact Nat.lt_succ_of_le (List.length_filter_le _ _)

/-- One pivot cell of `self.df.pivot(columns='height',values=...)`
(`sowfa.py:241`), keyed by `(t_index, height)` (`t_index` is an injective
affine image of the `datetime` pivot index): the cell value when exactly
one row matches, `none` (NaN) when no row matches. -/
def pivotCell (df : DFrame) (f : String) (t z : ℚ) : Option ℚ :=
  match df.rows.filter fun r => decide (r.t_index = t) && decide (r.height = z) with
  | [r] => r.cell f
  | _ => none

/-- One labelled output block of `write_timeheight`: a `sourceHeights*`
height list or a `sourceTable*` time-height table. -/
inductive THEntry : Type
  | heights (label : String) (zs : List ℚ)
  | table (label : String) (rows : List (ℚ × List ℚ))
deriving DecidableEq, Repr

/-- Body of `write_timeheight` after the momentum-completeness assertion
(`sowfa.py:227-286`): extract unique heights and times, zero-fill missing
requested columns on `self.df` itself, pivot, assert per-field
completeness (pandas `pivot` first raises on duplicate index/column
pairs), and emit the labelled blocks; momentum blocks when any momentum
component was requested, temperature blocks when `temp` is truthy (Python
`if temp:` — skipped for `None` and for the empty string). -/
def write_timeheight_body (st : InternalCoupling)
    (xmom ymom zmom temp : Option String) :
    InternalCoupling × Except IErr (List THEntry) :=
  let zs := uniqueKeepFirst (st.df.rows.map Row.height)
  let ts := uniqueKeepFirst (st.df.rows.map Row.t_index)
  let df1 := addMissingZeroColumns st.df [xmom, ymom, zmom, temp]
  let st1 : InternalCoupling := { st with df := df1 }
  if ts.any fun t => zs.any fun z =>
      decide (2 ≤ df1.rows.countP fun r =>
        decide (r.t_index = t) && decide (r.height = z)) then
    (st1, Except.error IErr.pivotDuplicate)
  else
    match ([xmom, ymom, zmom, temp].filterMap id).find?
        (fun f => !(ts.all fun t => zs.all fun z => (pivotCell df1 f t z).isSome)) with
    | some f => (st1, Except.error (IErr.fieldIncomplete f))
    | none =>
      let tbl := fun f => ts.map fun t => (t, zs.map fun z => (pivotCell df1 f t z).getD 0)
      let momEntries :=
        if [xmom.isSome, ymom.isSome, zmom.isSome].any id then
          [THEntry.heights "sourceHeightsMomentum" zs,
           THEntry.table "sourceTableMomentumX" (tbl (xmom.getD "")),
           THEntry.table "sourceTableMomentumY" (tbl (ymom.getD "")),
           THEntry.table "sourceTableMomentumZ" (tbl (zmom.getD ""))]
        else []
      let tempEntries :=
        match temp with
        | some f => if f = "" then [] else
            [THEntry.heights "sourceHeightsTemperature" zs,
             THEntry.table "sourceTableTemperature" (tbl f)]
        | none => []
      (st1, Except.ok (momEntries ++ tempEntries))

/-- Embeds `InternalCoupling.write_timeheight` (`sowfa.py:194-286`): the
momentum-completeness assertion (`sowfa.py:220-225`) runs first, before
any mutation; then the body. -/
def write_timeheight (st : InternalCoupling)
    (xmom ymom zmom temp : Option String) :
    InternalCoupling × Except IErr (List THEntry) :=
  if [xmom.isSome, ymom.isSome, zmom.isSome].any id &&
      !([xmom.isSome, ymom.isSome, zmom.isSome].all id) then
    (st, Except.error IErr.needAllMomentum)
  else write_timeheight_body st xmom ymom zmom temp

/-! ## Text-mode row formats (`np.savetxt` `fmt` arguments)

The claims about text rendering concern which `%`-format each writer
passes to `np.savetxt`; the formats are embedded literally.  A list of
per-column formats is joined by `np.savetxt` with the `' '` delimiter into
one row format. -/

/-- `fmt = ['    (%g', '%.12g)']` of `write_BCs` (`sowfa.py:137`). -/
def write_BCs_fmt : List String := ["    (%g", "%.12g)"]

/-- `fmt = ['    (%g'] + ['%.12g']*2 + ['%.12g)']` of `write_ICs`
(`sowfa.py:185`). -/
def write_ICs_fmt : List String := ["    (%g"] ++ List.replicate 2 "%.12g" ++ ["%.12g)"]

/-- `fmt = ['    (%g'] + ['%.12g']*(nz-1) + ['%.12g)']` of the
`write_timeheight` data tables (`sowfa.py:255,262,269,281`). -/
def write_timeheight_fmt (nz : Nat) : List String :=
  ["    (%g"] ++ List.replicate (nz - 1) "%.12g" ++ ["%.12g)"]

/-- `fmt='(%g %g %g)'` of `_write_points` text mode (`sowfa.py:452`). -/
def write_points_fmt : String := "(%g %g %g)"

/-- `fmt='(%g %g %g)'` of `_write_boundary_vector` text mode
(`sowfa.py:494`). -/
def write_boundary_vector_fmt : String := "(%g %g %g)"

/-- `fmt='%g'` of `_write_boundary_scalar` text mode (`sowfa.py:532`). -/
def write_boundary_scalar_fmt : String := "%g"

/-- `np.savetxt` joins a list of per-column formats with the default
delimiter `' '` into the row format. -/
def joinFmt : List String → String
  | [] => ""
  | [f] => f
  | f :: g :: rest => f ++ " " ++ joinFmt (g :: rest)

/-- Strip leading indentation of a row format. -/
def stripSpaces : List Char → List Char
  | ' ' :: rest => stripSpaces rest
  | l => l

/-- After the opening `(%g`, the remaining columns of a row format of the
shape the spec describes: zero or more ` %.12g` columns, then the closing
`)`. -/
def restCols : List Char → Bool
  | [')'] => true
  | ' ' :: '%' :: '.' :: '1' :: '2' :: 'g' :: rest => restCols rest
  | _ => false

/-- A row format of the shape the spec describes for text-mode tuples:
`(v1 v2 ... vn)` with the first column rendered `%g` (≈6 significant
digits) and every remaining column `%.12g` (≈12 significant digits),
allowing leading indentation. -/
def isLowHighTupleFmt (s : String) : Bool :=
  match stripSpaces s.data with
  | '(' :: '%' :: 'g' :: rest => restCols rest
  | _ => false

end Sowfa

namespace Sowfa

/-! ## Concrete instances used by witnesses and counterexamples -/

/-- A boundary write environment: `y`-boundary dataset with variables
`u`, `v`, `w`, `theta` and two retained timesteps. -/
def exampleEnv : WriteEnv where
  dims := [Axis.x, Axis.height]
  data_vars := ["u", "v", "w", "theta"]
  t_indices := [0, 3600]

/-- A `fields` request whose vector has only two components (both present
in the dataset, so the membership assertion passes and the arity
assertion fails). -/
def badFields : List (String × FieldSpec) := [("U", FieldSpec.vector ["u", "v"])]

/-- The end-to-end `write_ICs` scenario of the spec: two rows at `T0` and
`T0+1h` (as seconds, `t_index` relative to `T0`), a single height `10`,
one field `theta = [300, 301]`, start date `T0`. -/
def icScenario : InternalCoupling where
  df :=
    { columns := ["theta"]
      rows :=
        [{ datetime := 0, t_index := 0, height := 10, vals := [("theta", some 300)] },
         { datetime := 3600, t_index := 3600, height := 10, vals := [("theta", some 301)] }] }
  datefrom := 0

/-- Dimensions with two spatial axes missing (`y` and `height`): must be
rejected at construction. -/
def badDimsEx : List DimCoord :=
  [{ name := "datetime", coordDims := some ["datetime"] },
   { name := "x", coordDims := some ["x"] }]

end Sowfa

namespace Sowfa

/-! ## Shared helper lemmas -/

theorem flatMap_singleton_eq_map (l : List γ) (g : γ → δ) :
    (l.flatMap fun a => [g a]) = l.map g := by
  induction l with
  | nil => rfl
  | cons a rest ih => simp [ih]

/-- C1: for every gridded dataset whose axes omit exactly one of
{x, y, height}, the in-plane axis order of `BoundaryCoupling.write` is the
canonical priority list `[x, y, height]` filtered to the axes present, and
the `points` file and every per-timestep field payload are raveled in that
same nested row-major order: the k-th point carries exactly the in-plane
coordinates at which the k-th value of every field payload is evaluated. -/
theorem write_points_aligns_with_fieldRavel {α β : Type} (ds : BDataset α) (f : α → α → β)
    (h : oneMissing ds.dims) :
    bndry_dims ds.dims = ([Axis.x, Axis.y, Axis.height].filter fun a => a ∈ ds.dims) ∧
    (write_points ds).map (fieldAtPoint ds.dims f) = fieldRavel ds f := by
  refine ⟨rfl, ?_⟩
  rcases h with ⟨h1, h2, h3⟩ | ⟨h1, h2, h3⟩ | ⟨h1, h2, h3⟩
  · have e : bndry_dims ds.dims = [Axis.x, Axis.y] := by
      simp [bndry_dims, h1, h2, h3]
    have hF : ∀ p : α × α × α, fieldAtPoint ds.dims f p = f p.1 p.2.1 := by
      intro p; simp [fieldAtPoint, e, Axis.comp]
    simp [write_points, fieldRavel, mgCoord, e, h1, h2, h3, hF,
      List.map_flatMap, List.map_map, Function.comp_def, flatMap_singleton_eq_map]
  · have e : bndry_dims ds.dims = [Axis.x, Axis.height] := by
      simp [bndry_dims, h1, h2, h3]
    have hF : ∀ p : α × α × α, fieldAtPoint ds.dims f p = f p.1 p.2.2 := by
      intro p; simp [fieldAtPoint, e, Axis.comp]
    simp [write_points, fieldRavel, mgCoord, e, h1, h2, h3, hF,
      List.map_flatMap, List.map_map, Function.comp_def, flatMap_singleton_eq_map]
  · have e : bndry_dims ds.dims = [Axis.y, Axis.height] := by
      simp [bndry_dims, h1, h2, h3]
    have hF : ∀ p : α × α × α, fieldAtPoint ds.dims f p = f p.2.1 p.2.2 := by
      intro p; simp [fieldAtPoint, e, Axis.comp]
    simp [write_points, fieldRavel, mgCoord, e, h1, h2, h3, hF,
      List.map_flatMap, List.map_map, Function.comp_def, flatMap_singleton_eq_map]

/-- C1 witness: the alignment at the concrete `y`-boundary dataset. -/
theorem write_points_aligns_witness :
    oneMissing exampleDS.dims ∧
    (write_points exampleDS).map
        (fieldAtPoint exampleDS.dims fun c1 c2 => 10 * c1 + c2) =
      fieldRavel exampleDS fun c1 c2 => 10 * c1 + c2 :=
  ⟨Or.inr (Or.inl ⟨by decide, by decide, by decide⟩),
   (write_points_aligns_with_fieldRavel exampleDS (fun c1 c2 => 10 * c1 + c2)
      (Or.inr (Or.inl ⟨by decide, by decide, by decide⟩))).2⟩

end Sowfa

namespace Sowfa

theorem flatMap_const_eq_flatten_replicate (l : List γ) (m : List δ) :
    (l.flatMap fun _ => m) = (List.replicate l.length m).flatten := by
  induction l with
  | nil => rfl
  | cons a rest ih => simp [List.replicate_succ, ih]

/-- C2: a field lacking one of the two in-plane axes, once broadcast by
`expand_dims`, agrees with the original values on every slice along the
added axis, and its raveled per-timestep payload repeats the original
values once per coordinate value of the previously missing axis (whole
rows when the outer axis was missing, consecutive repetitions of each
value when the inner axis was missing). -/
theorem expand_dims_broadcast {α β : Type} (ds : BDataset α) (d1 d2 : Axis) (g : α → β)
    (h : bndry_dims ds.dims = [d1, d2]) :
    (∀ c1, ((ds.coord d2).map fun c2 => expand_dims_missing_first g c1 c2) =
      (ds.coord d2).map g) ∧
    fieldRavel ds (expand_dims_missing_first g) =
      (List.replicate (ds.coord d1).length ((ds.coord d2).map g)).flatten ∧
    (∀ c2, ((ds.coord d1).map fun c1 => expand_dims_missing_second g c1 c2) =
      (ds.coord d1).map g) ∧
    fieldRavel ds (expand_dims_missing_second g) =
      (ds.coord d1).flatMap fun c1 => List.replicate (ds.coord d2).length (g c1) := by
  refine ⟨fun c1 => rfl, ?_, fun c2 => rfl, ?_⟩
  · simp only [fieldRavel, h, expand_dims_missing_first]
    exact flatMap_const_eq_flatten_replicate _ _
  · simp only [fieldRavel, h, expand_dims_missing_second]
    simp [List.map_const']

/-- C2 witness: broadcasting at the concrete `y`-boundary dataset, for a
field that varies only along `height` and one that varies only along
`x`. -/
theorem expand_dims_broadcast_witness :
    bndry_dims exampleDS.dims = [Axis.x, Axis.height] ∧
    fieldRavel exampleDS (expand_dims_missing_first fun c : Int => 100 + c) =
      (List.replicate (exampleDS.coord Axis.x).length
        ((exampleDS.coord Axis.height).map fun c => 100 + c)).flatten :=
  ⟨by decide,
   (expand_dims_broadcast exampleDS Axis.x Axis.height (fun c => 100 + c)
      (by decide)).2.1⟩

end Sowfa

namespace Sowfa

/-- C3: the per-timestep loop of the boundary field writers skips exactly
the timesteps whose `t_index` is negative (each recorded with a
diagnostic), and every retained timestep (`t_index ≥ 0`) produces exactly
one output file in the subdirectory named by its `t_index` value; no other
timestep is skipped. -/
theorem boundary_steps_skip_exactly_negative {β : Type} (slices : List (TSlice β)) :
    (write_boundary_steps slices).1 =
      (slices.filter fun s => !(decide (s.t_index < 0))).map (fun s => (s.t_index, s.payload)) ∧
    (write_boundary_steps slices).2 =
      (slices.filter fun s => decide (s.t_index < 0)).map TSlice.t_index := by
  induction slices with
  | nil => exact ⟨rfl, rfl⟩
  | cons s rest ih =>
    by_cases hs : s.t_index < 0 <;>
      simp [write_boundary_steps, hs, ih.1, ih.2]

end Sowfa

namespace Sowfa

set_option maxRecDepth 8000 in
/-- C4 counterexample: with the concrete 8-byte element encoding, the
binary files the source writes differ from files whose trailing
average-value placeholder is appended as element-typed raw zero bytes —
the source appends the literal ASCII bytes `"\n(0 0 0)"` / `"\n0"`
instead. -/
theorem binary_placeholder_not_element_bytes :
    binaryVectorFile encLE8 [(1, 2, 3)] ≠ binaryVectorFileSpec encLE8 [(1, 2, 3)] ∧
    binaryScalarFile encLE8 [7] ≠ binaryScalarFileSpec encLE8 [7] := by
  constructor <;> decide

/-- C4 (amended): in binary mode each boundary field file is the header as
UTF-8 text, the raw row-major bytes of the tuple array, the literal `)`
byte, and then the trailing average-value placeholder appended as the
literal ASCII byte string `"\n(0 0 0)"` (vector) resp. `"\n0"` (scalar) —
not as raw bytes of the field's element type. -/
theorem binary_file_layout (enc : Int → List Nat)
    (vdata : List (Int × Int × Int)) (sdata : List Int) :
    binaryVectorFile enc vdata =
      asciiBytes (boundaryDataHeader vdata.length) ++ tobytesVec enc vdata ++
        asciiBytes ")" ++ asciiBytes "\n(0 0 0)" ∧
    binaryScalarFile enc sdata =
      asciiBytes (boundaryDataHeader sdata.length) ++ tobytesScalar enc sdata ++
        asciiBytes ")" ++ asciiBytes "\n0" := by
  constructor <;> simp [binaryVectorFile, binaryScalarFile, fwrite, List.append_assoc]

end Sowfa

namespace Sowfa

/-- C5 counterexample: requesting a 2-component vector (both components
present in the dataset) makes `write` fail its arity assertion, yet the
`points` file has already been written — the failing call does retain
partial output. -/
theorem write_failure_retains_points :
    (write exampleEnv badFields).2 ≠ Except.ok () ∧
    (write exampleEnv badFields).1 = [BFile.points] := by
  refine ⟨?_, by decide⟩
  intro h
  have hval : (write exampleEnv badFields).2 =
      Except.error "assert (len(dvars) == 3)" := rfl
  rw [hval] at h
  exact Except.noConfusion h

theorem writeFieldLoop_spec (env : WriteEnv) (fields : List (String × FieldSpec))
    (acc : List BFile) :
    (writeFieldLoop env fields acc).1 =
      acc ++ ((fields.takeWhile fun p => fieldOK env p.2).flatMap fun p =>
        fieldFiles env p.1) ∧
    ((writeFieldLoop env fields acc).2 = Except.ok () ↔
      ∀ p ∈ fields, fieldOK env p.2 = true) := by
  induction fields generalizing acc with
  | nil => simp [writeFieldLoop]
  | cons p rest ih =>
    obtain ⟨fieldname, spec⟩ := p
    cases spec with
    | vector dvars =>
      by_cases hmem : (dvars.all fun d => decide (d ∈ env.data_vars)) = true
      · by_cases hlen : dvars.length = 3
        · have hok : fieldOK env (FieldSpec.vector dvars) = true := by
            simp [fieldOK, hmem, hlen]
          have := ih (acc ++ fieldFiles env fieldname)
          simp [writeFieldLoop, hmem, hlen, hok, this.1, this.2, List.takeWhile_cons]
        · have hok : fieldOK env (FieldSpec.vector dvars) = false := by
            simp [fieldOK, hlen]
          simp [writeFieldLoop, hmem, hlen, List.takeWhile_cons, hok]
      · have hok : fieldOK env (FieldSpec.vector dvars) = false := by
          simp only [fieldOK, Bool.and_eq_true] at hmem ⊢
          simp only [Bool.and_eq_false_iff]
          left
          exact Bool.not_eq_true _ ▸ (by simpa using hmem)
        simp [writeFieldLoop, hmem, List.takeWhile_cons, hok]
    | scalar dvar =>
      by_cases hmem : dvar ∈ env.data_vars
      · have hok : fieldOK env (FieldSpec.scalar dvar) = true := by
          simp [fieldOK, hmem]
        have := ih (acc ++ fieldFiles env fieldname)
        simp [writeFieldLoop, hmem, hok, this.1, this.2, List.takeWhile_cons]
      · have hok : fieldOK env (FieldSpec.scalar dvar) = false := by
          simp [fieldOK, hmem]
        simp [writeFieldLoop, hmem, List.takeWhile_cons, hok]

/-- C5 (amended): a declared vector field without exactly 3 components,
or a declared field name absent from the source data, makes `write` fail
via a precondition failure — but the `points` file, and the per-timestep
files of every field processed before the failing one, are already on
disk; only the failing field and those after it produce no files. -/
theorem write_output_on_failure (env : WriteEnv) (fields : List (String × FieldSpec))
    (h2 : (bndry_dims env.dims).length = 2) :
    (write env fields).1 =
      BFile.points :: ((fields.takeWhile fun p => fieldOK env p.2).flatMap fun p =>
        fieldFiles env p.1) ∧
    ((write env fields).2 = Except.ok () ↔ ∀ p ∈ fields, fieldOK env p.2 = true) := by
  have hs := writeFieldLoop_spec env fields [BFile.points]
  have hcond : ¬((!(decide ((bndry_dims env.dims).length = 2))) = true) := by
    simp [h2]
  rw [write, if_neg hcond]
  exact hs

/-- C5 witness: a valid call on the concrete environment writes the
`points` file followed by the per-timestep files of the requested
scalar. -/
theorem write_output_witness :
    (bndry_dims exampleEnv.dims).length = 2 ∧
    (write exampleEnv [("T", FieldSpec.scalar "theta")]).1 =
      BFile.points ::
        ((([("T", FieldSpec.scalar "theta")].takeWhile fun p =>
          fieldOK exampleEnv p.2).flatMap fun p => fieldFiles exampleEnv p.1)) :=
  ⟨by decide,
   (write_output_on_failure exampleEnv [("T", FieldSpec.scalar "theta")] (by decide)).1⟩

end Sowfa

namespace Sowfa

theorem removeAll_mem {names acc rem : List String} (hnd : acc.Nodup)
    (h : removeAll acc names = some rem) :
    ∀ a, a ∈ rem ↔ a ∈ acc ∧ a ∉ names := by
  induction names generalizing acc with
  | nil =>
    rw [removeAll] at h
    cases h
    simp
  | cons n rest ih =>
    rw [removeAll] at h
    by_cases hmem : n ∈ acc
    · rw [if_pos hmem] at h
      intro a
      rw [ih (hnd.erase n) h a, hnd.mem_erase_iff]
      simp only [List.mem_cons, not_or]
      constructor
      · rintro ⟨⟨hne, ha⟩, hr⟩
        exact ⟨ha, hne, hr⟩
      · rintro ⟨ha, hne, hr⟩
        exact ⟨⟨hne, ha⟩, hr⟩
    · rw [if_neg hmem] at h
      exact absurd h (by simp)

/-- C6: `BoundaryCoupling` construction succeeds only when every axis
present is one of {datetime, height, x, y}, each present axis is a proper
1-D coordinate indexed by itself, and exactly one axis of {x, y, height}
is missing; a dataset with no missing axis among {x, y, height}, or with
more than one missing, is rejected at construction. -/
theorem init_validates_axes (dims : List DimCoord) :
    (∀ c, BoundaryCoupling_init dims = Except.ok c →
      ((∀ d ∈ dims, d.name ∈ expected_dims ∧ d.coordDims = some [d.name]) ∧
       (["x", "y", "height"].filter fun n =>
         !(decide (n ∈ dims.map DimCoord.name))).length = 1)) ∧
    ((["x", "y", "height"].filter fun n =>
       !(decide (n ∈ dims.map DimCoord.name))).length ≠ 1 →
      ∀ c, BoundaryCoupling_init dims ≠ Except.ok c) := by
  have partA : ∀ c, BoundaryCoupling_init dims = Except.ok c →
      ((∀ d ∈ dims, d.name ∈ expected_dims ∧ d.coordDims = some [d.name]) ∧
       (["x", "y", "height"].filter fun n =>
         !(decide (n ∈ dims.map DimCoord.name))).length = 1) := by
    intro c hok
    unfold BoundaryCoupling_init at hok
    cases hchk : check_xarray_dataset dims with
    | error e => rw [hchk] at hok; exact absurd hok (by simp)
    | ok c0 =>
      rw [hchk] at hok
      simp only [] at hok
      by_cases hdt : "datetime" ∈ dims.map DimCoord.name
      · rw [if_pos hdt] at hok
        unfold check_xarray_dataset at hchk
        by_cases hall : dims.all check_dim = true
        · have hcond : ¬((!(dims.all check_dim)) = true) := by simp [hall]
          rw [if_neg hcond] at hchk
          cases hrm : removeAll expected_dims (dims.map DimCoord.name) with
          | none => rw [hrm] at hchk; exact absurd hchk (by simp)
          | some rem =>
            rw [hrm] at hchk
            match rem, hchk with
            | [r], hchk =>
              have hmem := removeAll_mem (by decide : expected_dims.Nodup) hrm
              constructor
              · intro d hd
                have := (List.all_eq_true.mp hall) d hd
                rw [check_dim, Bool.and_eq_true, decide_eq_true_eq,
                  decide_eq_true_eq] at this
                exact this
              · have hr : r ∈ expected_dims ∧ r ∉ dims.map DimCoord.name :=
                  (hmem r).1 (by simp)
                have hrne : r ≠ "datetime" := by
                  intro h
                  rw [h] at hr
                  exact hr.2 hdt
                have hcases : r = "height" ∨ r = "x" ∨ r = "y" := by
                  have h1 := hr.1
                  rw [expected_dims] at h1
                  simp only [List.mem_cons, List.not_mem_nil, or_false] at h1
                  rcases h1 with h1 | h1 | h1 | h1
                  · exact absurd h1 hrne
                  · exact Or.inl h1
                  · exact Or.inr (Or.inl h1)
                  · exact Or.inr (Or.inr h1)
                have hin : ∀ a, a ∈ expected_dims → a ≠ r →
                    a ∈ dims.map DimCoord.name := by
                  intro a ha hne
                  by_contra hnin
                  have : a ∈ [r] := (hmem a).2 ⟨ha, hnin⟩
                  simp only [List.mem_singleton] at this
                  exact hne this
                rcases hcases with hc | hc | hc
                · have h1 : "x" ∈ dims.map DimCoord.name :=
                    hin "x" (by decide) (by rw [hc]; decide)
                  have h2 : "y" ∈ dims.map DimCoord.name :=
                    hin "y" (by decide) (by rw [hc]; decide)
                  have h3 : "height" ∉ dims.map DimCoord.name := by
                    rw [← hc]; exact hr.2
                  simp [h1, h2, h3, -List.mem_map]
                · have h1 : "x" ∉ dims.map DimCoord.name := by
                    rw [← hc]; exact hr.2
                  have h2 : "y" ∈ dims.map DimCoord.name :=
                    hin "y" (by decide) (by rw [hc]; decide)
                  have h3 : "height" ∈ dims.map DimCoord.name :=
                    hin "height" (by decide) (by rw [hc]; decide)
                  simp [h1, h2, h3, -List.mem_map]
                · have h1 : "x" ∈ dims.map DimCoord.name :=
                    hin "x" (by decide) (by rw [hc]; decide)
                  have h2 : "y" ∉ dims.map DimCoord.name := by
                    rw [← hc]; exact hr.2
                  have h3 : "height" ∈ dims.map DimCoord.name :=
                    hin "height" (by decide) (by rw [hc]; decide)
                  simp [h1, h2, h3, -List.mem_map]
            | [], hchk => exact absurd hchk (by simp)
            | r1 :: r2 :: rtl, hchk => exact absurd hchk (by simp)
        · have hfalse : dims.all check_dim = false := by
            exact Bool.not_eq_true _ ▸ (by simpa using hall)
          rw [hfalse] at hchk
          exact absurd hchk (by simp)
      · rw [if_neg hdt] at hok
        exact absurd hok (by simp)
  exact ⟨partA, fun hlen c hok => hlen (partA c hok).2⟩

/-- C6 witness: a dataset missing both `y` and `height` is rejected. -/
theorem init_validates_axes_witness :
    (["x", "y", "height"].filter fun n =>
      !(decide (n ∈ badDimsEx.map DimCoord.name))).length ≠ 1 ∧
    BoundaryCoupling_init badDimsEx ≠ Except.ok "y" :=
  ⟨by decide, (init_validates_axes badDimsEx).2 (by decide) "y"⟩

end Sowfa

namespace Sowfa

theorem write_timeheight_body_no_mom_error (st : InternalCoupling)
    (xmom ymom zmom temp : Option String) :
    (write_timeheight_body st xmom ymom zmom temp).2 ≠
      Except.error IErr.needAllMomentum := by
  rw [write_timeheight_body]
  split
  · intro h
    simp at h
  · split
    · intro h
      simp at h
    · intro h
      simp at h

/-- C7: `write_timeheight` fails its momentum-completeness assertion
(before any other effect, with the stored state untouched) when exactly
one or exactly two of {xmom, ymom, zmom} are specified, and passes it —
never surfacing that assertion — when all three or none are specified. -/
theorem write_timeheight_momentum_completeness (xmom ymom zmom : Option String) :
    (([xmom, ymom, zmom].countP Option.isSome = 1 ∨
      [xmom, ymom, zmom].countP Option.isSome = 2) →
      ∀ st temp, write_timeheight st xmom ymom zmom temp =
        (st, Except.error IErr.needAllMomentum)) ∧
    (([xmom, ymom, zmom].countP Option.isSome = 0 ∨
      [xmom, ymom, zmom].countP Option.isSome = 3) →
      ∀ st temp, (write_timeheight st xmom ymom zmom temp).2 ≠
        Except.error IErr.needAllMomentum) := by
  cases xmom <;> cases ymom <;> cases zmom <;>
    refine ⟨fun hcnt st temp => ?_, fun hcnt st temp => ?_⟩ <;>
    first
      | (simp at hcnt; done)
      | (rw [write_timeheight]; simp; done)
      | (rw [write_timeheight]
         simp
         exact write_timeheight_body_no_mom_error st _ _ _ temp)

end Sowfa

namespace Sowfa

/-- C7 witness: requesting only `xmom` fails the completeness assertion
on the concrete writer state. -/
theorem write_timeheight_momentum_witness :
    ([some "u", none, none].countP Option.isSome = 1 ∨
      [some "u", none, none].countP Option.isSome = 2) ∧
    write_timeheight icScenario (some "u") none none none =
      (icScenario, Except.error IErr.needAllMomentum) :=
  ⟨Or.inl (by decide),
   (write_timeheight_momentum_completeness (some "u") none none).1
     (Or.inl (by decide)) icScenario none⟩

/-- C8: evaluating `write_ICs` on the spec's end-to-end scenario (two
rows at T0 and T0+1h, single height 10, `theta = [300, 301]`, start date
T0).  Exactly one row matches the start date, so
`self.df.loc[self.datefrom]` squeezes to a pandas `Series` and the
`df.columns` access raises `AttributeError` — the code never emits the
`(10 0 0 300)` line the claim requires. -/
theorem write_ICs_unique_start_row_raises :
    write_ICs icScenario "u" "v" "theta" =
      (icScenario, Except.error IErr.seriesHasNoColumns) := by
  rfl

end Sowfa

namespace Sowfa

/-- C9 counterexample: the boundary writers do not use the
first-column-low / remaining-columns-high tuple format the spec claims
for all writers — points and vector files format every column `%g`, and
scalar field files use a bare `%g` with no parentheses at all. -/
theorem boundary_fmts_not_low_high :
    isLowHighTupleFmt write_points_fmt = false ∧
    isLowHighTupleFmt write_boundary_vector_fmt = false ∧
    isLowHighTupleFmt write_boundary_scalar_fmt = false := by
  refine ⟨rfl, rfl, rfl⟩

theorem joinFmt_cons_of_ne_nil (f : String) (l : List String) (h : l ≠ []) :
    joinFmt (f :: l) = f ++ " " ++ joinFmt l := by
  cases l with
  | nil => exact absurd rfl h
  | cons g rest => rfl

theorem restCols_rep (k : Nat) :
    restCols (' ' :: (joinFmt (List.replicate k "%.12g" ++ ["%.12g)"])).data) = true := by
  induction k with
  | zero => rfl
  | succ k ih =>
    have hne : List.replicate k "%.12g" ++ ["%.12g)"] ≠ [] := by simp
    rw [List.replicate_succ, List.cons_append, joinFmt_cons_of_ne_nil _ _ hne,
      String.data_append, String.data_append]
    exact ih

/-- C9 (amended): the internal-coupling writers (`write_BCs`, `write_ICs`,
`write_timeheight` for any positive number of heights) do render each
tuple as `(v1 v2 ... vn)` with the first column `%g` and every remaining
column `%.12g`; but the boundary `points` and vector field files use
`(%g %g %g)` (every column ≈6 significant digits), and boundary scalar
field files use the bare `%g` with no enclosing parentheses. -/
theorem writer_row_formats :
    isLowHighTupleFmt (joinFmt write_BCs_fmt) = true ∧
    isLowHighTupleFmt (joinFmt write_ICs_fmt) = true ∧
    (∀ k, isLowHighTupleFmt (joinFmt (write_timeheight_fmt (k + 1))) = true) ∧
    write_points_fmt = "(%g %g %g)" ∧
    write_boundary_vector_fmt = "(%g %g %g)" ∧
    write_boundary_scalar_fmt = "%g" := by
  refine ⟨rfl, rfl, fun k => ?_, rfl, rfl, rfl⟩
  have hfmt : write_timeheight_fmt (k + 1) =
      "    (%g" :: (List.replicate k "%.12g" ++ ["%.12g)"]) := by
    rw [write_timeheight_fmt]
    simp
  have hne : List.replicate k "%.12g" ++ ["%.12g)"] ≠ [] := by simp
  rw [hfmt, joinFmt_cons_of_ne_nil _ _ hne]
  have hdata : (("    (%g" ++ " ") ++ joinFmt (List.replicate k "%.12g" ++ ["%.12g)"])).data =
      [' ', ' ', ' ', ' ', '(', '%', 'g', ' '] ++
        (joinFmt (List.replicate k "%.12g" ++ ["%.12g)"])).data := by
    rw [String.data_append]
    rfl
  rw [isLowHighTupleFmt, hdata]
  exact restCols_rep k

end Sowfa

namespace Sowfa

theorem lookup_eq_none_of_not_mem_keys {l : List (String × Option ℚ)} {a : String}
    (h : a ∉ l.map Prod.fst) : l.lookup a = none := by
  induction l with
  | nil => rfl
  | cons p rest ih =>
    obtain ⟨k, v⟩ := p
    simp only [List.map_cons, List.mem_cons, not_or] at h
    simp only [List.lookup]
    rw [show (a == k) = false from beq_eq_false_iff_ne.mpr h.1]
    exact ih h.2

theorem lookup_append_of_none {l1 l2 : List (String × Option ℚ)} {a : String}
    (h : l1.lookup a = none) : (l1 ++ l2).lookup a = l2.lookup a := by
  induction l1 with
  | nil => rfl
  | cons p rest ih =>
    obtain ⟨k, v⟩ := p
    rw [List.cons_append]
    simp only [List.lookup] at h ⊢
    cases hbeq : a == k with
    | true => rw [hbeq] at h; simp at h
    | false => rw [hbeq] at h; exact ih h

theorem write_timeheight_body_fst (st : InternalCoupling)
    (x y z t : Option String) :
    (write_timeheight_body st x y z t).1 =
      { st with df := addMissingZeroColumns st.df [x, y, z, t] } := by
  simp only [write_timeheight_body]
  split
  · rfl
  · split <;> rfl

theorem write_ICs_fst (st : InternalCoupling) (x y t : String) :
    (write_ICs st x y t).1 = st := by
  simp only [write_ICs]
  split
  · rfl
  · rfl
  · split <;> rfl

/-- C10: requesting `write_timeheight` with a field name missing from the
stored dataframe adds a zero-filled column of that name to the stored
dataframe itself, and the mutation persists: a subsequent `write_BCs` on
the same writer state sees the new complete column and succeeds with all
zeros, while `write_ICs` zero-fills only a copy and always leaves the
stored state unchanged. -/
theorem write_timeheight_mutates_stored_df (st : InternalCoupling) (f : String)
    (hf : f ∉ st.df.columns)
    (hwf : ∀ r ∈ st.df.rows, r.vals.map Prod.fst = st.df.columns) :
    ((write_timeheight st none none none (some f)).1).df.columns =
      st.df.columns ++ [f] ∧
    (∀ r ∈ ((write_timeheight st none none none (some f)).1).df.rows,
      r.cell f = some 0) ∧
    (∀ fact, (write_BCs (write_timeheight st none none none (some f)).1 f fact).2 =
      Except.ok (st.df.rows.map fun r => (r.t_index, 0))) ∧
    (∀ st2 x y t, (write_ICs st2 x y t).1 = st2) := by
  have hmom : write_timeheight st none none none (some f) =
      write_timeheight_body st none none none (some f) := rfl
  have hbody := write_timeheight_body_fst st none none none (some f)
  have hdf : addMissingZeroColumns st.df [none, none, none, some f] =
      addZeroColumn st.df f := by
    simp [addMissingZeroColumns, hf]
  have hst : (write_timeheight st none none none (some f)).1 =
      { st with df := addZeroColumn st.df f } := by
    rw [hmom, hbody, hdf]
  have hcell : ∀ r ∈ (addZeroColumn st.df f).rows, r.cell f = some 0 := by
    intro r hr
    rw [addZeroColumn] at hr
    simp only [List.mem_map] at hr
    obtain ⟨r0, hr0, hre⟩ := hr
    subst hre
    rw [Row.cell]
    have hkeys : r0.vals.lookup f = none :=
      lookup_eq_none_of_not_mem_keys (by rw [hwf r0 hr0]; exact hf)
    simp only [lookup_append_of_none hkeys, List.lookup]
    rw [show (f == f) = true from beq_self_eq_true f]
    rfl
  refine ⟨?_, ?_, ?_, fun st2 x y t => write_ICs_fst st2 x y t⟩
  · rw [hst]
    rfl
  · rw [hst]
    exact hcell
  · intro fact
    rw [hst]
    have hmem : f ∈ (addZeroColumn st.df f).columns := by
      simp [addZeroColumn]
    have hall : ((addZeroColumn st.df f).rows.all fun r =>
        (r.cell f).isSome) = true := by
      rw [List.all_eq_true]
      intro r hr
      rw [hcell r hr]
      rfl
    rw [write_BCs]
    simp only [hmem, decide_eq_true_eq, hall, Bool.not_true, decide_True]
    simp only [Bool.false_eq_true, if_false, ite_false]
    have : ∀ r ∈ (addZeroColumn st.df f).rows,
        (r.t_index, fact * (r.cell f).getD 0) = (r.t_index, (0 : ℚ)) := by
      intro r hr
      rw [hcell r hr]
      simp
    rw [List.map_congr_left this]
    rw [addZeroColumn]
    simp [List.map_map]

end Sowfa

namespace Sowfa

/-- C10 witness: on the concrete scenario state, requesting the absent
field `q` through `write_timeheight` appends a zero-filled `q` column to
the stored dataframe itself. -/
theorem write_timeheight_mutates_witness :
    ((write_timeheight icScenario none none none (some "q")).1).df.columns =
      icScenario.df.columns ++ ["q"] :=
  (write_timeheight_mutates_stored_df icScenario "q" (by decide) (by decide)).1

end Sowfa
